import Mathlib

/-!
Verification development for the MultiQC `cellranger_arc` module
(`multiqc/modules/cellranger_arc/cellranger_arc.py`).

The module scans Cell Ranger ARC `web_summary.html` files for an embedded
`const data = {...}` JSON line, parses eight fixed table/helptext sections,
alarm entries and four plot sections out of it, and accumulates the results
into per-sample mappings that are finally filtered by a sample-exclusion
predicate.

The embedding below models JSON values, Python-style fallible access
(`KeyError`, `IndexError`, `TypeError`, `AssertionError`) via `Except`,
and Python `dict` semantics as association lists with insert-or-overwrite
(`dinsert`), which preserves first-insertion order as CPython dicts do.
-/

namespace CellrangerArc

/-- JSON values as embedded in the web-summary report files.  Numbers are
modelled as rationals (JSON numerals are decimal literals). -/
inductive Json where
  | null : Json
  | bool : Bool → Json
  | num : Rat → Json
  | str : String → Json
  | arr : List Json → Json
  | obj : List (String × Json) → Json
deriving Repr

/-- Python exception kinds that the module's code paths can raise, plus the
host-framework `ModuleNoSamplesFound` signal raised at the end of `__init__`. -/
inductive PyError where
  | keyError : String → PyError
  | indexError : PyError
  | typeError : PyError
  | attributeError : PyError
  | assertionError : PyError
  | noSamplesFound : PyError
deriving Repr, DecidableEq

/-- First-match lookup in an association list (Python `dict` access). -/
def lookupKey {α : Type} : List (String × α) → String → Option α
  | [], _ => none
  | (k', v) :: rest, k => if k' = k then some v else lookupKey rest k

/-- Python `dict` insertion: overwriting an existing key keeps its position,
a new key is appended at the end. -/
def dinsert {α : Type} : List (String × α) → String → α → List (String × α)
  | [], k, v => [(k, v)]
  | (k', v') :: rest, k, v =>
    if k' = k then (k, v) :: rest else (k', v') :: dinsert rest k v

/-- The key list of an association-list mapping, in insertion order. -/
def keysOf {α : Type} (m : List (String × α)) : List String := m.map Prod.fst

/-- Python `summary[k]` on a JSON value: a `KeyError` if the key is absent
from an object, a `TypeError` when string-subscripting a non-object. -/
def Json.getKey : Json → String → Except PyError Json
  | .obj kvs, k =>
    match lookupKey kvs k with
    | some v => .ok v
    | none => .error (.keyError k)
  | _, _ => .error .typeError

/-- View a JSON value as a list (Python list operations on anything else in
the code paths modelled here raise a `TypeError`). -/
def Json.asArr : Json → Except PyError (List Json)
  | .arr l => .ok l
  | _ => .error .typeError

/-- View a JSON value as a string. -/
def Json.asStr : Json → Except PyError String
  | .str s => .ok s
  | _ => .error .typeError

/-- View a JSON value as a number. -/
def Json.asNum : Json → Except PyError Rat
  | .num q => .ok q
  | _ => .error .typeError

/-- Python integer subscription `x[n]`: list indexing (`IndexError` when out
of range), string indexing (one-character string), `KeyError` on a dict whose
keys are strings, `TypeError` otherwise. -/
def Json.pyIndex : Json → Nat → Except PyError Json
  | .arr l, n =>
    match l.get? n with
    | some x => .ok x
    | none => .error .indexError
  | .str s, n =>
    match s.data.get? n with
    | some c => .ok (.str (String.mk [c]))
    | none => .error .indexError
  | .obj _, _ => .error (.keyError "int")
  | _, _ => .error .typeError

/-- Python `j == "s"` for a JSON value against a string literal: true exactly
when `j` is that string. -/
def Json.isStrEq (j : Json) (s : String) : Bool :=
  match j with
  | .str t => t = s
  | _ => false

/-!  ## Summary Extractor (lines 58-67 of the source)

`for line in f: line = line.strip(); if line.startswith("const data"):
line = line.replace("const data = ", ""); summary = json.loads(line); break`.

The three Python string operations are modelled structurally over the
strings' character lists.
-/

/-- Python `str.strip()`: remove leading and trailing whitespace. -/
def pyStrip (s : String) : String :=
  ⟨((s.data.dropWhile Char.isWhitespace).reverse.dropWhile Char.isWhitespace).reverse⟩

/-- Python `str.startswith(pre)`. -/
def pyStartswith (s pre : String) : Bool := pre.data.isPrefixOf s.data

/-- Replace every occurrence of `pat` (left to right, non-overlapping) by
`rep`, with a character-count fuel; one character is consumed per step, so
fuel equal to the scanned list's length is exact for non-empty `pat` (the
module only replaces the non-empty literal `"const data = "`). -/
def replaceAux (pat rep : List Char) : Nat → List Char → List Char
  | 0, l => l
  | _ + 1, [] => []
  | fuel + 1, c :: cs =>
    if pat.isPrefixOf (c :: cs) then
      rep ++ replaceAux pat rep fuel ((c :: cs).drop pat.length)
    else c :: replaceAux pat rep fuel cs

/-- Python `s.replace(pat, rep)` for non-empty `pat`. -/
def pyReplace (s pat rep : String) : String :=
  ⟨replaceAux pat.data rep.data s.data.length s.data⟩

/-- Scan the file's lines for the first one whose stripped content starts
with `"const data"`; return that line with every occurrence of the substring
`"const data = "` removed (Python `str.replace` replaces all occurrences),
ready to be JSON-parsed.  `none` when no line matches. -/
def findConstData : List String → Option String
  | [] => none
  | l :: ls =>
    let s := pyStrip l
    if pyStartswith s "const data" then some (pyReplace s "const data = " "")
    else findConstData ls

/-!  ## Version regex (line 77 of the source)

`re.search(r"cellranger-arc-([\d\.]+)", version_pair[1])`.
-/

/-- Character class `[\d\.]`. -/
def verChar (c : Char) : Bool := c.isDigit || c == '.'

/-- The literal part of the version pattern. -/
def verLit : List Char := "cellranger-arc-".data

/-- Leftmost-match search for `cellranger-arc-([\d\.]+)` over a character
list: at each position, the literal must match and be followed by at least
one `[\d\.]` character; the capture is the maximal such run. -/
def searchVerAux : List Char → Option String
  | [] => none
  | c :: cs =>
    if verLit.isPrefixOf (c :: cs) then
      let v := ((c :: cs).drop verLit.length).takeWhile verChar
      if v.isEmpty then searchVerAux cs else some (String.mk v)
    else searchVerAux cs

/-- `re.search(r"cellranger-arc-([\d\.]+)", s)`, returning the captured
group when the pattern matches somewhere in `s`. -/
def regexSearchVersion (s : String) : Option String := searchVerAux s.data

/-!  ## Header/Data Normalizer (spec-modelled: `utils.py` is not under src/) -/

/-- Header metadata for one metric column. -/
structure Header where
  title : String
  description : Option Json
  scale : Option String
  nspace : Option String
  hidden : Bool
deriving Repr

/-- A `[name, value, ...]` row (or `[name, description, ...]` helptext entry)
with a string name, per the report schema; anything else carries no entry. -/
def rowEntry : Json → Option (String × Json)
  | .arr (.str n :: v :: _) => some (n, v)
  | _ => none

/-- The metric names contributed by a list of rows, in row order. -/
def rowNames (rows : List Json) : List String :=
  (rows.filterMap rowEntry).map Prod.fst

/-- The description of the first helptext entry matching a metric name. -/
def helpDescription (helps : List Json) (n : String) : Option Json :=
  helps.findSome? fun h =>
    match rowEntry h with
    | some (m, d) => if m = n then some d else none
    | none => none

/-- One step of the normalizer's fold over the combined rows: record the
row's value in the data mapping and its header (title = name, description =
matching helptext) in the registry, overwriting same-name entries. -/
def tdhStep (helps : List Json)
    (acc : List (String × Json) × List (String × Header)) (r : Json) :
    List (String × Json) × List (String × Header) :=
  match rowEntry r with
  | some (n, v) =>
    (dinsert acc.1 n v, dinsert acc.2 n ⟨n, helpDescription helps n, none, none, false⟩)
  | none => acc

/-- Modelled from the spec: `utils.table_data_and_headers` is not under
src/.  Per spec sections 4.2 and 4.3 it turns the combined `(name, value)`
rows and `(name, description)` helptext entries into (a) the per-sample
data mapping from metric name to raw value and (b) header metadata with
title = name and description = the matching helptext, while the per-run
header registry accumulates/overwrites entries as successive files are
parsed (later files' metadata for the same name wins); the registry is
threaded explicitly as spec section 9 suggests. -/
def table_data_and_headers (registry : List (String × Header))
    (rows : List Json) (helps : List Json) :
    List (String × Json) × List (String × Header) :=
  rows.foldl (tdhStep helps) ([], registry)

/-- Modelled from the spec: `utils.subset_header` is not under src/.  Per
spec section 4.3 it takes the full header-metadata mapping plus a
caller-supplied ordered list of metric names of interest (each paired with
a color-scale name, optionally with a namespace label) and returns only the
headers matching those names, preserving the caller's given order. -/
def subset_header (headers : List (String × Header))
    (cols : List (String × String)) (nspace : Option String) :
    List (String × Header) :=
  cols.filterMap fun c =>
    (lookupKey headers c.1).map fun h =>
      (c.1, ⟨h.title, h.description, some c.2, nspace, h.hidden⟩)

/-!  ## Plot Data Extractor (spec-modelled: `utils.py` is not under src/) -/

/-- One plot's extracted data: per sub-series, the ordered (x, y) pairs. -/
def PlotData : Type := List (List (Rat × Rat))
deriving instance Repr for PlotData

/-- Modelled from the spec: `utils.extract_plot_data` is not under src/.
Per spec section 4.4 it reshapes one plot's JSON sub-object (nested arrays
of x/y coordinates, one per sub-series) into ordered (x, y) numeric pairs
with no re-binning or smoothing; a missing or malformed plot sub-object is
a hard failure that propagates. -/
def extract_plot_data (plot : Json) : Except PyError PlotData := do
  let traces ← (← plot.getKey "data").asArr
  traces.mapM fun tr => do
    let xs ← (← tr.getKey "x").asArr
    let ys ← (← tr.getKey "y").asArr
    let xs ← xs.mapM Json.asNum
    let ys ← ys.mapM Json.asNum
    pure (xs.zip ys)

/-!  ## Report Parser (`parse_html_summary`, lines 131-182 of the source) -/

/-- The eight table-section keys, in the order their `rows` lists are
concatenated (source lines 139-148). -/
def tableKeys : List String :=
  ["joint_metrics_table", "atac_sequencing_table", "gex_sequencing_table",
   "atac_cells_table", "gex_cells_table", "atac_mapping_table",
   "gex_mapping_table", "atac_targeting_table"]

/-- The eight helptext-section keys, in the order their `data` lists are
concatenated (source lines 149-158). -/
def helpKeys : List String :=
  ["joint_metrics_helptext", "atac_sequencing_helptext", "gex_sequencing_helptext",
   "atac_cells_helptext", "gex_cells_helptext", "atac_mapping_helptext",
   "gex_mapping_helptext", "atac_targeting_helptext"]

/-- The four plot-section keys accessed at source lines 177-180. -/
def plotKeys : List String :=
  ["atac_tss_enrichment_plot", "atac_insert_size_plot",
   "gex_seq_saturation_plot", "gex_genes_per_cell_plot"]

/-- All twenty required table/helptext/plot keys. -/
def requiredKeys : List String := tableKeys ++ helpKeys ++ plotKeys

/-- `summary[k]["rows"]` as a list. -/
def getRowsOf (summary : Json) (k : String) : Except PyError (List Json) := do
  (← (← summary.getKey k).getKey "rows").asArr

/-- `summary[k]["data"]` as a list. -/
def getHelpOf (summary : Json) (k : String) : Except PyError (List Json) := do
  (← (← summary.getKey k).getKey "data").asArr

/-- `data_rows`: the eight table sections' `rows` lists concatenated in the
source's fixed order (source lines 139-148). -/
def dataRowsOf (summary : Json) : Except PyError (List Json) := do
  let r1 ← getRowsOf summary "joint_metrics_table"
  let r2 ← getRowsOf summary "atac_sequencing_table"
  let r3 ← getRowsOf summary "gex_sequencing_table"
  let r4 ← getRowsOf summary "atac_cells_table"
  let r5 ← getRowsOf summary "gex_cells_table"
  let r6 ← getRowsOf summary "atac_mapping_table"
  let r7 ← getRowsOf summary "gex_mapping_table"
  let r8 ← getRowsOf summary "atac_targeting_table"
  pure (r1 ++ r2 ++ r3 ++ r4 ++ r5 ++ r6 ++ r7 ++ r8)

/-- `help_text`: the eight helptext sections' `data` lists concatenated in
the source's fixed order (source lines 149-158). -/
def helpTextOf (summary : Json) : Except PyError (List Json) := do
  let h1 ← getHelpOf summary "joint_metrics_helptext"
  let h2 ← getHelpOf summary "atac_sequencing_helptext"
  let h3 ← getHelpOf summary "gex_sequencing_helptext"
  let h4 ← getHelpOf summary "atac_cells_helptext"
  let h5 ← getHelpOf summary "gex_cells_helptext"
  let h6 ← getHelpOf summary "atac_mapping_helptext"
  let h7 ← getHelpOf summary "gex_mapping_helptext"
  let h8 ← getHelpOf summary "atac_targeting_helptext"
  pure (h1 ++ h2 ++ h3 ++ h4 ++ h5 ++ h6 ++ h7 ++ h8)

/-- Metadata of one warnings-table column (source lines 171-175):
`{"title": ..., "description": alarm message, "bgcols": {"FAIL": "#f06807"}}`. -/
structure WHeader where
  title : String
  description : Json
  bgcols : List (String × String)
deriving Repr

/-- A warning dict key: alarm titles are strings per the report schema;
an unhashable or non-string title is modelled as a type failure. -/
def hashableKey : Json → Except PyError String
  | .str s => .ok s
  | _ => .error .typeError

/-- `summary["alarms"].get("alarms", [])` (source line 166): a `KeyError`
when `"alarms"` is absent from the summary, the empty list when the inner
`alarms` key is absent from the alarms block; the block must be a dict for
`.get` to exist, and the result must be a list to iterate (non-list
iterables are not produced by the report and are modelled as a failure). -/
def getAlarmsList (summary : Json) : Except PyError (List Json) := do
  let block ← summary.getKey "alarms"
  match block with
  | .obj kvs =>
    match lookupKey kvs "alarms" with
    | some v => v.asArr
    | none => .ok []
  | _ => .error .attributeError

/-- The alarm loop (source lines 167-175): skip entries without an `"id"`
key, record `warnings[title] = "FAIL"` and the warnings-header metadata for
the rest; entries must be dicts for the `"id" not in alarm` test, modelled
as a type failure otherwise. -/
def buildWarnings (warns : List (String × String))
    (whdrs : List (String × WHeader)) :
    List Json → Except PyError (List (String × String) × List (String × WHeader))
  | [] => .ok (warns, whdrs)
  | a :: rest =>
    match a with
    | .obj kvs =>
      match lookupKey kvs "id" with
      | none => buildWarnings warns whdrs rest
      | some _ => do
        let t ← hashableKey (← Json.getKey (.obj kvs) "title")
        let msg ← Json.getKey (.obj kvs) "message"
        buildWarnings (dinsert warns t "FAIL")
          (dinsert whdrs t ⟨t, msg, [("FAIL", "#f06807")]⟩) rest
    | _ => .error .typeError

/-- The result of parsing one file's summary: per-sample parsed data, the
updated per-run header registry, the file's warnings, the updated per-run
warnings-header registry, and the four plot datasets. -/
structure ParseResult where
  parsed : List (String × Json)
  headers : List (String × Header)
  warns : List (String × String)
  wheaders : List (String × WHeader)
  tss : PlotData
  insertSize : PlotData
  saturation : PlotData
  genes : PlotData
deriving Repr

/-- `MultiqcModule.parse_html_summary` (source lines 131-182): concatenate
the eight table sections' rows and the eight helptext sections' data in
fixed order, normalize them into data and headers (updating the per-run
header registry), collect the warnings from `alarms.alarms`, and extract
the four plot datasets by fixed key names. -/
def parse_html_summary (registry : List (String × Header))
    (whdrs0 : List (String × WHeader)) (summary : Json) :
    Except PyError ParseResult := do
  let data_rows ← dataRowsOf summary
  let help_text ← helpTextOf summary
  let alarms_list ← getAlarmsList summary
  let ww ← buildWarnings [] whdrs0 alarms_list
  let tss ← extract_plot_data (← summary.getKey "atac_tss_enrichment_plot")
  let ins ← extract_plot_data (← summary.getKey "atac_insert_size_plot")
  let sat ← extract_plot_data (← summary.getKey "gex_seq_saturation_plot")
  let genes ← extract_plot_data (← summary.getKey "gex_genes_per_cell_plot")
  pure ⟨(table_data_and_headers registry data_rows help_text).1,
        (table_data_and_headers registry data_rows help_text).2,
        ww.1, ww.2, tss, ins, sat, genes⟩

/-!  ## Software-version extraction (source lines 72-81) -/

/-- The body of the version `try` block (source lines 74-79):
`version_pair = summary["joint_pipeline_info_table"]["rows"][2]`,
`assert version_pair[0] == "Pipeline version"`, then regex-search
`cellranger-arc-([\d\.]+)` in `version_pair[1]`; the version is the
captured group when the search matches, nothing otherwise. -/
def extract_version (summary : Json) : Except PyError (Option String) := do
  let rowsJ ← (← summary.getKey "joint_pipeline_info_table").getKey "rows"
  let pair ← rowsJ.pyIndex 2
  let label ← pair.pyIndex 0
  if label.isStrEq "Pipeline version" then do
    let s ← (← pair.pyIndex 1).asStr
    pure (regexSearchVersion s)
  else
    throw .assertionError

/-- Outcome of the version sub-step: the recorded version, if any, and
whether the debug-level message of the `except` clause was logged. -/
structure VersionOutcome where
  version : Option String
  loggedDebug : Bool
deriving Repr, DecidableEq

/-- The version sub-step with its `except (KeyError, AssertionError)`
handler (source lines 73-81): those two exception kinds are caught locally
and turned into a debug log entry; any other exception propagates. -/
def extract_version_step (summary : Json) : Except PyError VersionOutcome :=
  match extract_version summary with
  | .ok v => .ok ⟨v, false⟩
  | .error (.keyError _) => .ok ⟨none, true⟩
  | .error .assertionError => .ok ⟨none, true⟩
  | .error e => .error e

/-!  ## The `__init__` scan loop (source lines 47-98) -/

/-- One candidate report file, as yielded by the host's file locator:
its name and its text lines. -/
structure FileInput where
  fn : String
  lines : List String

/-- The module's accumulating per-run state: the per-sample mappings, the
two per-run header registries, the recorded software versions, the data
sources, and the debug log. -/
structure ModuleState where
  data : List (String × List (String × Json))
  warnings : List (String × List (String × String))
  warnings_headers : List (String × WHeader)
  all_headers : List (String × Header)
  tss : List (String × PlotData)
  insertSize : List (String × PlotData)
  saturation : List (String × PlotData)
  genes : List (String × PlotData)
  versions : List (String × String)
  sources : List (String × String)
  debugLog : List String
deriving Repr

/-- The state at the top of `__init__` (source lines 47-56): every mapping
empty. -/
def initState : ModuleState := ⟨[], [], [], [], [], [], [], [], [], [], []⟩

/-- The pure state update of source lines 73-90, factored from the
fallible accesses: append the debug log entries of the version sub-step
and of a duplicate sample name, record the version and the data source,
and write the sample's data, warnings (only when non-empty) and four plot
datasets into the per-sample mappings, replacing the two header registries
with the versions the parse produced. -/
def recordSample (fn : String) (st : ModuleState) (sname : String)
    (pr : ParseResult) (vo : VersionOutcome) : ModuleState :=
  let log1 :=
    if vo.loggedDebug then
      st.debugLog ++ ["Unable to parse version for sample " ++ sname]
    else st.debugLog
  let versions :=
    match vo.version with
    | some v => dinsert st.versions sname v
    | none => st.versions
  let log2 :=
    if (lookupKey st.data sname).isSome then
      log1 ++ ["Duplicate sample name found in " ++ fn ++ "! Overwriting: " ++ sname]
    else log1
  ⟨dinsert st.data sname pr.parsed,
    (if pr.warns.length > 0 then dinsert st.warnings sname pr.warns else st.warnings),
    pr.wheaders, pr.headers,
    dinsert st.tss sname pr.tss,
    dinsert st.insertSize sname pr.insertSize,
    dinsert st.saturation sname pr.saturation,
    dinsert st.genes sname pr.genes,
    versions,
    st.sources ++ [(sname, fn)],
    log2⟩

/-- Processing one file's parsed summary (source lines 69-90): clean the
sample id, parse the summary, run the guarded version sub-step, then apply
the `recordSample` state update.  `clean` stands for the host's
`clean_s_name` normalization. -/
def processSummary (clean : String → String) (fn : String)
    (st : ModuleState) (summary : Json) : Except PyError ModuleState := do
  let sid ← (← (← summary.getKey "sample").getKey "id").asStr
  let pr ← parse_html_summary st.all_headers st.warnings_headers summary
  let vo ← extract_version_step summary
  pure (recordSample fn st (clean sid) pr vo)

/-- Processing one candidate file (source lines 58-90): scan its lines for
the `const data` payload; skip the file when there is none, otherwise parse
the payload as JSON (`parseJson` stands for `json.loads` restricted to this
run's payloads) and process the summary. -/
def processFile (parseJson : String → Json) (clean : String → String)
    (st : ModuleState) (f : FileInput) : Except PyError ModuleState :=
  match findConstData f.lines with
  | none => .ok st
  | some txt => processSummary clean f.fn st (parseJson txt)

/-- Modelled from the spec: `BaseMultiqcModule.ignore_samples` is not under
src/.  Per the spec it filters a per-sample mapping by the external
sample-exclusion predicate, keeping exactly the samples the predicate
admits. -/
def ignore_samples {α : Type} (keep : String → Bool)
    (m : List (String × α)) : List (String × α) :=
  m.filter fun p => keep p.1

/-- The per-sample mappings handed to the rendering collaborators after the
exclusion filter. -/
structure FinalOutputs where
  data : List (String × List (String × Json))
  warnings : List (String × List (String × String))
  tss : List (String × PlotData)
  insertSize : List (String × PlotData)
  saturation : List (String × PlotData)
  genes : List (String × PlotData)
deriving Repr

/-- The post-scan phase (source lines 92-98): filter each accumulated
mapping once by the exclusion predicate, then raise `ModuleNoSamplesFound`
when no sample is left in the metrics mapping. -/
def finalize (keep : String → Bool) (st : ModuleState) :
    Except PyError FinalOutputs :=
  let d := ignore_samples keep st.data
  let w := ignore_samples keep st.warnings
  let t := ignore_samples keep st.tss
  let i := ignore_samples keep st.insertSize
  let s := ignore_samples keep st.saturation
  let g := ignore_samples keep st.genes
  if d.length = 0 then .error .noSamplesFound else .ok ⟨d, w, t, i, s, g⟩

/-- The whole `__init__` run over the located files: fold the per-file step
over the file list, then finalize. -/
def runModule (parseJson : String → Json) (clean : String → String)
    (keep : String → Bool) (files : List FileInput) :
    Except PyError FinalOutputs := do
  let st ← files.foldlM (processFile parseJson clean) initState
  finalize keep st

/-!  ## Concrete report summaries used as test inputs -/

/-- A table section holding the given rows. -/
def mkTable (rows : List Json) : Json := .obj [("rows", .arr rows)]

/-- A helptext section holding the given entries. -/
def mkHelp (entries : List Json) : Json := .obj [("data", .arr entries)]

/-- A plot section with no traces. -/
def emptyPlot : Json := .obj [("data", .arr [])]

/-- A `[name, value]` table row. -/
def mkRow (n v : String) : Json := .arr [.str n, .str v]

/-- The field list of a minimal well-formed summary: sample id `sid`, the
given rows in the joint metrics table and the given alarm entries; every
other required section empty. -/
def mkSummaryFields (sid : String) (jointRows : List Json) (alarmsItems : List Json) :
    List (String × Json) :=
  [("sample", .obj [("id", .str sid)]),
        ("joint_metrics_table", mkTable jointRows),
        ("atac_sequencing_table", mkTable []),
        ("gex_sequencing_table", mkTable []),
        ("atac_cells_table", mkTable []),
        ("gex_cells_table", mkTable []),
        ("atac_mapping_table", mkTable []),
        ("gex_mapping_table", mkTable []),
        ("atac_targeting_table", mkTable []),
        ("joint_metrics_helptext", mkHelp []),
        ("atac_sequencing_helptext", mkHelp []),
        ("gex_sequencing_helptext", mkHelp []),
        ("atac_cells_helptext", mkHelp []),
        ("gex_cells_helptext", mkHelp []),
        ("atac_mapping_helptext", mkHelp []),
        ("gex_mapping_helptext", mkHelp []),
        ("atac_targeting_helptext", mkHelp []),
        ("alarms", .obj [("alarms", .arr alarmsItems)]),
        ("atac_tss_enrichment_plot", emptyPlot),
        ("atac_insert_size_plot", emptyPlot),
        ("gex_seq_saturation_plot", emptyPlot),
        ("gex_genes_per_cell_plot", emptyPlot)]

/-- A minimal well-formed summary built from `mkSummaryFields`. -/
def mkSummary (sid : String) (jointRows : List Json) (alarmsItems : List Json) : Json :=
  .obj (mkSummaryFields sid jointRows alarmsItems)

/-- A minimal summary with one required key removed. -/
def summaryDrop (k : String) : Json :=
  Json.obj ((mkSummaryFields "A" [] []).filter fun p => p.1 ≠ k)

/-- A concrete alarm entry carrying an `id`, a title and a message. -/
def alarmA1 : Json :=
  .obj [("id", .str "a1"), ("title", .str "W1"), ("message", .str "m1")]

/-- First test file's summary: sample `A`, one metric, one alarm. -/
def summaryA1 : Json :=
  mkSummary "A" [mkRow "M1" "v1"] [alarmA1]

/-- Second test file's summary: the same sample `A`, a different value for
the same metric, and no alarms. -/
def summaryA2 : Json := mkSummary "A" [mkRow "M1" "v2"] []

/-- A summary for sample `B` with a metric name disjoint from `A`'s. -/
def summaryB : Json := mkSummary "B" [mkRow "M2" "w1"] []

/-- A JSON decoder covering exactly this run's payload texts. -/
def testParseJson (s : String) : Json :=
  if s = "1" then summaryA1 else if s = "2" then summaryA2 else summaryB

/-- The two same-sample test files, whose payload lines decode to
`summaryA1` and `summaryA2`. -/
def dupFiles : List FileInput :=
  [⟨"f1.html", ["<html>", "const data = 1"]⟩,
   ⟨"f2.html", ["<html>", "const data = 2"]⟩]

/-!  ## Derived observations used in the statements -/

/-- Whether an alarm entry carries an `"id"` key (only dict entries can). -/
def alarmHasId : Json → Bool
  | .obj kvs => (lookupKey kvs "id").isSome
  | _ => false

/-- The alarm's title, when it is a string as the report schema requires. -/
def alarmTitle : Json → Option String
  | .obj kvs =>
    match lookupKey kvs "title" with
    | some (.str t) => some t
    | _ => none
  | _ => none

/-- The alarm's message, when present. -/
def alarmMessage : Json → Option Json
  | .obj kvs => lookupKey kvs "message"
  | _ => none

/-- A well-formed alarm entry: a dict which, when it carries an `"id"`,
also carries a string `"title"` and a `"message"` (the report schema's
shape for alarms). -/
def alarmOk (a : Json) : Bool :=
  match a with
  | .obj kvs =>
    (lookupKey kvs "id").isNone ||
      ((match lookupKey kvs "title" with
        | some (.str _) => true
        | _ => false) && (lookupKey kvs "message").isSome)
  | _ => false

/-- How many entries of a mapping carry the key `k`. -/
def countKey {α : Type} (m : List (String × α)) (k : String) : Nat :=
  (m.filter fun p => p.1 = k).length

/-- The four per-sample plot mappings carry exactly the metrics mapping's
keys. -/
def plotsSynced (st : ModuleState) : Prop :=
  keysOf st.tss = keysOf st.data ∧ keysOf st.insertSize = keysOf st.data ∧
    keysOf st.saturation = keysOf st.data ∧ keysOf st.genes = keysOf st.data

/-!  ## Helper lemmas: dict semantics -/

theorem lookup_dinsert_self {α : Type} (m : List (String × α)) (k : String) (v : α) :
    lookupKey (dinsert m k v) k = some v := by
  induction m with
  | nil => simp [dinsert, lookupKey]
  | cons p rest ih =>
    obtain ⟨a, b⟩ := p
    by_cases h : a = k
    · simp [dinsert, h, lookupKey]
    · simp [dinsert, h, lookupKey, ih]

theorem lookup_dinsert_ne {α : Type} (m : List (String × α)) (k k' : String) (v : α)
    (h : k' ≠ k) : lookupKey (dinsert m k v) k' = lookupKey m k' := by
  induction m with
  | nil => simp [dinsert, lookupKey, Ne.symm h]
  | cons p rest ih =>
    obtain ⟨a, b⟩ := p
    by_cases hak : a = k
    · subst hak
      simp [dinsert, lookupKey, Ne.symm h]
    · simp only [dinsert, if_neg hak]
      by_cases hak' : a = k'
      · simp [lookupKey, hak']
      · simp [lookupKey, hak', ih]

theorem keys_dinsert {α : Type} (m : List (String × α)) (k : String) (v : α) :
    keysOf (dinsert m k v) = if k ∈ keysOf m then keysOf m else keysOf m ++ [k] := by
  induction m with
  | nil => simp [dinsert, keysOf]
  | cons p rest ih =>
    obtain ⟨a, b⟩ := p
    by_cases h : a = k
    · subst h
      simp [dinsert, keysOf]
    · simp only [dinsert, if_neg h, keysOf, List.map_cons] at ih ⊢
      rw [ih]
      have hne : ¬ k = a := fun hh => h hh.symm
      by_cases hmem : k ∈ rest.map Prod.fst <;>
        simp [List.mem_cons, hne, hmem]

theorem keys_dinsert_congr {α β : Type} (m₁ : List (String × α)) (m₂ : List (String × β))
    (k : String) (v : α) (w : β) (h : keysOf m₁ = keysOf m₂) :
    keysOf (dinsert m₁ k v) = keysOf (dinsert m₂ k w) := by
  rw [keys_dinsert, keys_dinsert, h]

theorem mem_keys_dinsert {α : Type} (m : List (String × α)) (k : String) (v : α) :
    k ∈ keysOf (dinsert m k v) := by
  rw [keys_dinsert]
  by_cases h : k ∈ keysOf m <;> simp [h]

theorem countKey_cons {α : Type} (a : String) (b : α) (rest : List (String × α))
    (k : String) :
    countKey ((a, b) :: rest) k = (if a = k then 1 else 0) + countKey rest k := by
  simp only [countKey, List.filter_cons]
  by_cases h : a = k
  · simp [h, Nat.add_comm]
  · simp [h]

theorem countKey_dinsert {α : Type} (m : List (String × α)) (k : String) (v : α)
    (h : countKey m k ≤ 1) : countKey (dinsert m k v) k = 1 := by
  induction m with
  | nil => simp [dinsert, countKey]
  | cons p rest ih =>
    obtain ⟨a, b⟩ := p
    rw [countKey_cons] at h
    by_cases hak : a = k
    · subst hak
      simp at h
      have h0 : countKey rest a = 0 := by omega
      simp [dinsert, countKey_cons, h0]
    · simp only [if_neg hak, Nat.zero_add] at h
      simp only [dinsert, if_neg hak, countKey_cons, if_neg hak, Nat.zero_add]
      exact ih h

theorem lookup_filter_not_keep {α : Type} (keep : String → Bool)
    (m : List (String × α)) (s : String) (h : keep s = false) :
    lookupKey (ignore_samples keep m) s = none := by
  induction m with
  | nil => simp [ignore_samples, lookupKey]
  | cons p rest ih =>
    obtain ⟨a, b⟩ := p
    simp only [ignore_samples, List.filter_cons] at ih ⊢
    by_cases hk : keep a
    · have hne : ¬ a = s := fun hh => by rw [hh, h] at hk; exact Bool.noConfusion hk
      simp [hk, lookupKey, hne, ih]
    · simp only [Bool.not_eq_true] at hk
      simp [hk, ih]

/-!  ## Helper lemmas: `Except` plumbing -/

theorem except_bind_ok_iff {ε α β : Type} (x : Except ε α) (f : α → Except ε β) (b : β) :
    (x >>= f) = .ok b ↔ ∃ a, x = .ok a ∧ f a = .ok b := by
  cases x <;> simp [Bind.bind, Except.bind]

theorem except_bind_ok {ε α β : Type} (a : α) (f : α → Except ε β) :
    ((Except.ok a : Except ε α) >>= f) = f a := rfl

theorem except_pure_eq {ε α : Type} (a : α) : (pure a : Except ε α) = .ok a := rfl

theorem except_error_bind {ε α β : Type} (e : ε) (f : α → Except ε β) :
    ((Except.error e : Except ε α) >>= f) = .error e := rfl

/-!  ## Helper lemmas: deconstructing the parser's chains -/

theorem dataRowsOf_intro (s : Json) (r1 r2 r3 r4 r5 r6 r7 r8 : List Json)
    (h1 : getRowsOf s "joint_metrics_table" = .ok r1)
    (h2 : getRowsOf s "atac_sequencing_table" = .ok r2)
    (h3 : getRowsOf s "gex_sequencing_table" = .ok r3)
    (h4 : getRowsOf s "atac_cells_table" = .ok r4)
    (h5 : getRowsOf s "gex_cells_table" = .ok r5)
    (h6 : getRowsOf s "atac_mapping_table" = .ok r6)
    (h7 : getRowsOf s "gex_mapping_table" = .ok r7)
    (h8 : getRowsOf s "atac_targeting_table" = .ok r8) :
    dataRowsOf s = .ok (r1 ++ r2 ++ r3 ++ r4 ++ r5 ++ r6 ++ r7 ++ r8) := by
  simp only [dataRowsOf, h1, h2, h3, h4, h5, h6, h7, h8, except_bind_ok, except_pure_eq]

theorem helpTextOf_intro (s : Json) (h1 h2 h3 h4 h5 h6 h7 h8 : List Json)
    (e1 : getHelpOf s "joint_metrics_helptext" = .ok h1)
    (e2 : getHelpOf s "atac_sequencing_helptext" = .ok h2)
    (e3 : getHelpOf s "gex_sequencing_helptext" = .ok h3)
    (e4 : getHelpOf s "atac_cells_helptext" = .ok h4)
    (e5 : getHelpOf s "gex_cells_helptext" = .ok h5)
    (e6 : getHelpOf s "atac_mapping_helptext" = .ok h6)
    (e7 : getHelpOf s "gex_mapping_helptext" = .ok h7)
    (e8 : getHelpOf s "atac_targeting_helptext" = .ok h8) :
    helpTextOf s = .ok (h1 ++ h2 ++ h3 ++ h4 ++ h5 ++ h6 ++ h7 ++ h8) := by
  simp only [helpTextOf, e1, e2, e3, e4, e5, e6, e7, e8, except_bind_ok, except_pure_eq]

theorem dataRowsOf_elim {s : Json} {l : List Json} (h : dataRowsOf s = .ok l) :
    ∀ k ∈ tableKeys, ∃ r, getRowsOf s k = .ok r := by
  unfold dataRowsOf at h
  rw [except_bind_ok_iff] at h; obtain ⟨r1, h1, h⟩ := h
  rw [except_bind_ok_iff] at h; obtain ⟨r2, h2, h⟩ := h
  rw [except_bind_ok_iff] at h; obtain ⟨r3, h3, h⟩ := h
  rw [except_bind_ok_iff] at h; obtain ⟨r4, h4, h⟩ := h
  rw [except_bind_ok_iff] at h; obtain ⟨r5, h5, h⟩ := h
  rw [except_bind_ok_iff] at h; obtain ⟨r6, h6, h⟩ := h
  rw [except_bind_ok_iff] at h; obtain ⟨r7, h7, h⟩ := h
  rw [except_bind_ok_iff] at h; obtain ⟨r8, h8, h⟩ := h
  intro k hk
  simp only [tableKeys, List.mem_cons, List.not_mem_nil, or_false] at hk
  rcases hk with rfl | rfl | rfl | rfl | rfl | rfl | rfl | rfl
  exacts [⟨r1, h1⟩, ⟨r2, h2⟩, ⟨r3, h3⟩, ⟨r4, h4⟩, ⟨r5, h5⟩, ⟨r6, h6⟩, ⟨r7, h7⟩, ⟨r8, h8⟩]

theorem helpTextOf_elim {s : Json} {l : List Json} (h : helpTextOf s = .ok l) :
    ∀ k ∈ helpKeys, ∃ r, getHelpOf s k = .ok r := by
  unfold helpTextOf at h
  rw [except_bind_ok_iff] at h; obtain ⟨r1, h1, h⟩ := h
  rw [except_bind_ok_iff] at h; obtain ⟨r2, h2, h⟩ := h
  rw [except_bind_ok_iff] at h; obtain ⟨r3, h3, h⟩ := h
  rw [except_bind_ok_iff] at h; obtain ⟨r4, h4, h⟩ := h
  rw [except_bind_ok_iff] at h; obtain ⟨r5, h5, h⟩ := h
  rw [except_bind_ok_iff] at h; obtain ⟨r6, h6, h⟩ := h
  rw [except_bind_ok_iff] at h; obtain ⟨r7, h7, h⟩ := h
  rw [except_bind_ok_iff] at h; obtain ⟨r8, h8, h⟩ := h
  intro k hk
  simp only [helpKeys, List.mem_cons, List.not_mem_nil, or_false] at hk
  rcases hk with rfl | rfl | rfl | rfl | rfl | rfl | rfl | rfl
  exacts [⟨r1, h1⟩, ⟨r2, h2⟩, ⟨r3, h3⟩, ⟨r4, h4⟩, ⟨r5, h5⟩, ⟨r6, h6⟩, ⟨r7, h7⟩, ⟨r8, h8⟩]

theorem getRowsOf_elim {s : Json} {k : String} {r : List Json}
    (h : getRowsOf s k = .ok r) : ∃ v, Json.getKey s k = .ok v := by
  unfold getRowsOf at h
  rw [except_bind_ok_iff] at h
  obtain ⟨v, hv, _⟩ := h
  exact ⟨v, hv⟩

theorem getHelpOf_elim {s : Json} {k : String} {r : List Json}
    (h : getHelpOf s k = .ok r) : ∃ v, Json.getKey s k = .ok v := by
  unfold getHelpOf at h
  rw [except_bind_ok_iff] at h
  obtain ⟨v, hv, _⟩ := h
  exact ⟨v, hv⟩

theorem parse_ok_elim {reg : List (String × Header)} {wh0 : List (String × WHeader)}
    {s : Json} {pr : ParseResult}
    (h : parse_html_summary reg wh0 s = .ok pr) :
    ∃ rows helps al ww tJ t iJ i sJ sa gJ g,
      dataRowsOf s = .ok rows ∧
      helpTextOf s = .ok helps ∧
      getAlarmsList s = .ok al ∧
      buildWarnings [] wh0 al = .ok ww ∧
      Json.getKey s "atac_tss_enrichment_plot" = .ok tJ ∧ extract_plot_data tJ = .ok t ∧
      Json.getKey s "atac_insert_size_plot" = .ok iJ ∧ extract_plot_data iJ = .ok i ∧
      Json.getKey s "gex_seq_saturation_plot" = .ok sJ ∧ extract_plot_data sJ = .ok sa ∧
      Json.getKey s "gex_genes_per_cell_plot" = .ok gJ ∧ extract_plot_data gJ = .ok g ∧
      pr = ⟨(table_data_and_headers reg rows helps).1,
            (table_data_and_headers reg rows helps).2, ww.1, ww.2, t, i, sa, g⟩ := by
  unfold parse_html_summary at h
  rw [except_bind_ok_iff] at h; obtain ⟨rows, hrows, h⟩ := h
  rw [except_bind_ok_iff] at h; obtain ⟨helps, hhelps, h⟩ := h
  rw [except_bind_ok_iff] at h; obtain ⟨al, hal, h⟩ := h
  rw [except_bind_ok_iff] at h; obtain ⟨ww, hww, h⟩ := h
  rw [except_bind_ok_iff] at h; obtain ⟨tJ, htJ, h⟩ := h
  rw [except_bind_ok_iff] at h; obtain ⟨t, ht, h⟩ := h
  rw [except_bind_ok_iff] at h; obtain ⟨iJ, hiJ, h⟩ := h
  rw [except_bind_ok_iff] at h; obtain ⟨i, hi, h⟩ := h
  rw [except_bind_ok_iff] at h; obtain ⟨sJ, hsJ, h⟩ := h
  rw [except_bind_ok_iff] at h; obtain ⟨sa, hsa, h⟩ := h
  rw [except_bind_ok_iff] at h; obtain ⟨gJ, hgJ, h⟩ := h
  rw [except_bind_ok_iff] at h; obtain ⟨g, hg, h⟩ := h
  rw [except_pure_eq] at h
  injection h with h
  exact ⟨rows, helps, al, ww, tJ, t, iJ, i, sJ, sa, gJ, g,
    hrows, hhelps, hal, hww, htJ, ht, hiJ, hi, hsJ, hsa, hgJ, hg, h.symm⟩

theorem processSummary_ok_elim {clean : String → String} {fn : String}
    {st : ModuleState} {summary : Json} {st' : ModuleState}
    (h : processSummary clean fn st summary = .ok st') :
    ∃ sblock sidJ sid pr vo,
      Json.getKey summary "sample" = .ok sblock ∧
      Json.getKey sblock "id" = .ok sidJ ∧
      Json.asStr sidJ = .ok sid ∧
      parse_html_summary st.all_headers st.warnings_headers summary = .ok pr ∧
      extract_version_step summary = .ok vo ∧
      st' = recordSample fn st (clean sid) pr vo := by
  unfold processSummary at h
  rw [except_bind_ok_iff] at h; obtain ⟨sblock, hsb, h⟩ := h
  rw [except_bind_ok_iff] at h; obtain ⟨sidJ, hsj, h⟩ := h
  rw [except_bind_ok_iff] at h; obtain ⟨sid, hsid, h⟩ := h
  rw [except_bind_ok_iff] at h; obtain ⟨pr, hpr, h⟩ := h
  rw [except_bind_ok_iff] at h; obtain ⟨vo, hvo, h⟩ := h
  rw [except_pure_eq] at h
  injection h with h
  exact ⟨sblock, sidJ, sid, pr, vo, hsb, hsj, hsid, hpr, hvo, h.symm⟩

/-!  ## Helper lemmas: the normalizer's registry fold -/

theorem rowNames_cons_none {r : Json} {rest : List Json} (h : rowEntry r = none) :
    rowNames (r :: rest) = rowNames rest := by
  simp [rowNames, List.filterMap_cons, h]

theorem rowNames_cons_some {r : Json} {rest : List Json} {m : String} {v : Json}
    (h : rowEntry r = some (m, v)) : rowNames (r :: rest) = m :: rowNames rest := by
  simp [rowNames, List.filterMap_cons, h]

theorem tdh_foldl_lookup (helps : List Json) (n : String) :
    ∀ (rows : List Json) (acc : List (String × Json) × List (String × Header)),
      lookupKey (List.foldl (tdhStep helps) acc rows).2 n =
        if n ∈ rowNames rows then some ⟨n, helpDescription helps n, none, none, false⟩
        else lookupKey acc.2 n := by
  intro rows
  induction rows with
  | nil => intro acc; simp [rowNames]
  | cons r rest ih =>
    intro acc
    rw [List.foldl_cons, ih]
    cases hre : rowEntry r with
    | none =>
      rw [rowNames_cons_none hre]
      simp [tdhStep, hre]
    | some p =>
      obtain ⟨m, v⟩ := p
      rw [rowNames_cons_some hre]
      by_cases hnm : n = m
      · subst hnm
        simp only [tdhStep, hre, List.mem_cons, true_or, if_pos]
        by_cases hmem : n ∈ rowNames rest
        · simp [hmem]
        · simp [hmem, lookup_dinsert_self]
      · simp only [tdhStep, hre, List.mem_cons]
        by_cases hmem : n ∈ rowNames rest
        · simp [hmem, hnm]
        · simp [hmem, hnm, lookup_dinsert_ne _ _ _ _ hnm]

theorem tdh_lookup (registry : List (String × Header)) (rows helps : List Json)
    (n : String) :
    lookupKey (table_data_and_headers registry rows helps).2 n =
      if n ∈ rowNames rows then some ⟨n, helpDescription helps n, none, none, false⟩
      else lookupKey registry n := by
  unfold table_data_and_headers
  rw [tdh_foldl_lookup]

/-!  ## Helper lemmas: the alarm loop -/

theorem buildWarnings_skip (kvs : List (String × Json)) (rest : List Json)
    (warns : List (String × String)) (whdrs : List (String × WHeader))
    (h : lookupKey kvs "id" = none) :
    buildWarnings warns whdrs (Json.obj kvs :: rest) = buildWarnings warns whdrs rest := by
  simp [buildWarnings, h]

theorem buildWarnings_spec :
    ∀ (items : List Json) (warns : List (String × String))
      (whdrs : List (String × WHeader)),
      (∀ a ∈ items, alarmOk a = true) →
      ∃ W H, buildWarnings warns whdrs items = .ok (W, H) ∧
        (∀ t, (∃ a ∈ items, alarmHasId a = true ∧ alarmTitle a = some t) →
          lookupKey W t = some "FAIL") ∧
        (∀ t, (∀ a ∈ items, ¬(alarmHasId a = true ∧ alarmTitle a = some t)) →
          lookupKey W t = lookupKey warns t ∧ lookupKey H t = lookupKey whdrs t) ∧
        (∀ t v, lookupKey W t = some v → lookupKey warns t = some v ∨
          (v = "FAIL" ∧ ∃ a ∈ items, alarmHasId a = true ∧ alarmTitle a = some t)) ∧
        (∀ t h, lookupKey H t = some h → lookupKey whdrs t = some h ∨
          (h.title = t ∧ h.bgcols = [("FAIL", "#f06807")] ∧
            ∃ a ∈ items, alarmHasId a = true ∧ alarmTitle a = some t ∧
              alarmMessage a = some h.description)) := by
  intro items
  induction items with
  | nil =>
    intro warns whdrs _
    exact ⟨warns, whdrs, rfl, by simp, by simp, fun t v hv => Or.inl hv,
      fun t h hv => Or.inl hv⟩
  | cons a rest ih =>
    intro warns whdrs hok
    have haok : alarmOk a = true := hok a (List.mem_cons_self a rest)
    have hrest : ∀ x ∈ rest, alarmOk x = true :=
      fun x hx => hok x (List.mem_cons_of_mem a hx)
    cases a with
    | obj kvs =>
      cases hid : lookupKey kvs "id" with
      | none =>
        obtain ⟨W, H, hbw, c1, c2, c3, c4⟩ := ih warns whdrs hrest
        refine ⟨W, H, ?_, ?_, ?_, ?_, ?_⟩
        · rw [buildWarnings_skip kvs rest warns whdrs hid]; exact hbw
        · rintro t ⟨x, hx, hxid, hxt⟩
          rw [List.mem_cons] at hx
          rcases hx with hx | hx
          · subst hx
            simp [alarmHasId, hid] at hxid
          · exact c1 t ⟨x, hx, hxid, hxt⟩
        · intro t ht
          exact c2 t fun x hx => ht x (List.mem_cons_of_mem _ hx)
        · intro t v hv
          rcases c3 t v hv with hl | ⟨hvf, x, hx, hxi, hxt⟩
          · exact Or.inl hl
          · exact Or.inr ⟨hvf, x, List.mem_cons_of_mem _ hx, hxi, hxt⟩
        · intro t h hv
          rcases c4 t h hv with hl | ⟨h1, h2, x, hx, hxi, hxt, hxm⟩
          · exact Or.inl hl
          · exact Or.inr ⟨h1, h2, x, List.mem_cons_of_mem _ hx, hxi, hxt, hxm⟩
      | some idv =>
        simp only [alarmOk, hid, Option.isNone_some, Bool.false_or,
          Bool.and_eq_true, decide_eq_true_eq, Option.isSome_iff_exists] at haok
        obtain ⟨hTit, msg, hmsg⟩ := haok
        cases hTitV : lookupKey kvs "title" with
        | none => rw [hTitV] at hTit; simp at hTit
        | some tv =>
          rw [hTitV] at hTit
          cases tv with
          | str t0 =>
            obtain ⟨W, H, hbw, c1, c2, c3, c4⟩ :=
              ih (dinsert warns t0 "FAIL")
                (dinsert whdrs t0 ⟨t0, msg, [("FAIL", "#f06807")]⟩) hrest
            have hstep : buildWarnings warns whdrs (Json.obj kvs :: rest) =
                buildWarnings (dinsert warns t0 "FAIL")
                  (dinsert whdrs t0 ⟨t0, msg, [("FAIL", "#f06807")]⟩) rest := by
              simp [buildWarnings, hid, Json.getKey, hTitV, hashableKey, hmsg,
                except_bind_ok]
            have hhid : alarmHasId (Json.obj kvs) = true := by
              simp [alarmHasId, hid]
            have htit : alarmTitle (Json.obj kvs) = some t0 := by
              simp [alarmTitle, hTitV]
            have hmsga : alarmMessage (Json.obj kvs) = some msg := by
              simp [alarmMessage, hmsg]
            refine ⟨W, H, by rw [hstep]; exact hbw, ?_, ?_, ?_, ?_⟩
            · rintro t ⟨x, hx, hxid, hxt⟩
              rw [List.mem_cons] at hx
              rcases hx with hx | hx
              · subst hx
                rw [htit] at hxt
                injection hxt with hxt
                subst hxt
                by_cases hmem : ∃ x ∈ rest, alarmHasId x = true ∧ alarmTitle x = some t0
                · exact c1 t0 hmem
                · have := c2 t0 (by push_neg at hmem; intro x hx hc; exact hmem x hx hc.1 hc.2)
                  rw [this.1, lookup_dinsert_self]
              · exact c1 t ⟨x, hx, hxid, hxt⟩
            · intro t ht
              have hne : t ≠ t0 := by
                intro he
                exact ht (Json.obj kvs) (List.mem_cons_self _ _) ⟨hhid, he ▸ htit⟩
              have := c2 t fun x hx => ht x (List.mem_cons_of_mem _ hx)
              rw [this.1, this.2, lookup_dinsert_ne _ _ _ _ hne,
                lookup_dinsert_ne _ _ _ _ hne]
              exact ⟨rfl, rfl⟩
            · intro t v hv
              rcases c3 t v hv with hl | ⟨hvf, x, hx, hxi, hxt⟩
              · by_cases hne : t = t0
                · subst hne
                  rw [lookup_dinsert_self] at hl
                  injection hl with hl
                  exact Or.inr ⟨hl.symm, Json.obj kvs, List.mem_cons_self _ _, hhid, htit⟩
                · rw [lookup_dinsert_ne _ _ _ _ hne] at hl
                  exact Or.inl hl
              · exact Or.inr ⟨hvf, x, List.mem_cons_of_mem _ hx, hxi, hxt⟩
            · intro t h hv
              rcases c4 t h hv with hl | ⟨h1, h2, x, hx, hxi, hxt, hxm⟩
              · by_cases hne : t = t0
                · subst hne
                  rw [lookup_dinsert_self] at hl
                  injection hl with hl
                  refine Or.inr ⟨?_, ?_, Json.obj kvs, List.mem_cons_self _ _, hhid, htit, ?_⟩
                  · rw [← hl]
                  · rw [← hl]
                  · rw [← hl]; exact hmsga
                · rw [lookup_dinsert_ne _ _ _ _ hne] at hl
                  exact Or.inl hl
              · exact Or.inr ⟨h1, h2, x, List.mem_cons_of_mem _ hx, hxi, hxt, hxm⟩
          | null => simp at hTit
          | bool b => simp at hTit
          | num q => simp at hTit
          | arr l => simp at hTit
          | obj o => simp at hTit
    | null => simp [alarmOk] at haok
    | bool b => simp [alarmOk] at haok
    | num q => simp [alarmOk] at haok
    | str s => simp [alarmOk] at haok
    | arr l => simp [alarmOk] at haok

/-!  ## Helper lemmas: the scan loop and the key-set invariant -/

theorem foldlM_except_nil {σ α : Type} (f : σ → α → Except PyError σ) (init : σ) :
    List.foldlM f init ([] : List α) = .ok init := rfl

theorem foldlM_except_cons {σ α : Type} (f : σ → α → Except PyError σ) (init : σ)
    (a : α) (as : List α) :
    List.foldlM f init (a :: as) = f init a >>= fun s => List.foldlM f s as := rfl

theorem recordSample_plots_synced (fn : String) (st : ModuleState) (sname : String)
    (pr : ParseResult) (vo : VersionOutcome) (h : plotsSynced st) :
    plotsSynced (recordSample fn st sname pr vo) := by
  obtain ⟨h1, h2, h3, h4⟩ := h
  unfold plotsSynced recordSample
  exact ⟨keys_dinsert_congr _ _ _ _ _ h1, keys_dinsert_congr _ _ _ _ _ h2,
    keys_dinsert_congr _ _ _ _ _ h3, keys_dinsert_congr _ _ _ _ _ h4⟩

theorem processFile_plots_synced {pj : String → Json} {clean : String → String}
    {st : ModuleState} {f : FileInput} {st' : ModuleState}
    (h : processFile pj clean st f = .ok st') (hs : plotsSynced st) :
    plotsSynced st' := by
  unfold processFile at h
  cases hf : findConstData f.lines with
  | none =>
    rw [hf] at h
    injection h with h
    rw [← h]
    exact hs
  | some txt =>
    rw [hf] at h
    obtain ⟨_, _, _, pr, vo, _, _, _, _, _, hrec⟩ := processSummary_ok_elim h
    rw [hrec]
    exact recordSample_plots_synced _ _ _ _ _ hs

theorem foldl_plots_synced (pj : String → Json) (clean : String → String) :
    ∀ (files : List FileInput) (st0 : ModuleState), plotsSynced st0 →
      ∀ st, List.foldlM (processFile pj clean) st0 files = .ok st → plotsSynced st := by
  intro files
  induction files with
  | nil =>
    intro st0 h0 st hst
    rw [foldlM_except_nil] at hst
    injection hst with hst
    rw [← hst]
    exact h0
  | cons f rest ih =>
    intro st0 h0 st hst
    rw [foldlM_except_cons, except_bind_ok_iff] at hst
    obtain ⟨st1, h1, hrest⟩ := hst
    exact ih st1 (processFile_plots_synced h1 h0) st hrest

/-!  ## The claims -/

/-- C1: for every parsed RawSummary object, the Report Parser builds the
combined metrics list by concatenating the `rows` lists of exactly eight
named table sections in the fixed order joint metrics, ATAC sequencing,
GEX sequencing, ATAC cells, GEX cells, ATAC mapping, GEX mapping, ATAC
targeting, and builds the combined helptext list by concatenating the
`data` lists of the eight matching helptext sections in the same relative
order; the parser's output is the normalization of exactly these two
concatenations. -/
theorem claim_c1_eight_section_concat (summary : Json)
    (r1 r2 r3 r4 r5 r6 r7 r8 d1 d2 d3 d4 d5 d6 d7 d8 : List Json)
    (e1 : getRowsOf summary "joint_metrics_table" = .ok r1)
    (e2 : getRowsOf summary "atac_sequencing_table" = .ok r2)
    (e3 : getRowsOf summary "gex_sequencing_table" = .ok r3)
    (e4 : getRowsOf summary "atac_cells_table" = .ok r4)
    (e5 : getRowsOf summary "gex_cells_table" = .ok r5)
    (e6 : getRowsOf summary "atac_mapping_table" = .ok r6)
    (e7 : getRowsOf summary "gex_mapping_table" = .ok r7)
    (e8 : getRowsOf summary "atac_targeting_table" = .ok r8)
    (f1 : getHelpOf summary "joint_metrics_helptext" = .ok d1)
    (f2 : getHelpOf summary "atac_sequencing_helptext" = .ok d2)
    (f3 : getHelpOf summary "gex_sequencing_helptext" = .ok d3)
    (f4 : getHelpOf summary "atac_cells_helptext" = .ok d4)
    (f5 : getHelpOf summary "gex_cells_helptext" = .ok d5)
    (f6 : getHelpOf summary "atac_mapping_helptext" = .ok d6)
    (f7 : getHelpOf summary "gex_mapping_helptext" = .ok d7)
    (f8 : getHelpOf summary "atac_targeting_helptext" = .ok d8) :
    dataRowsOf summary = .ok (r1 ++ r2 ++ r3 ++ r4 ++ r5 ++ r6 ++ r7 ++ r8) ∧
    helpTextOf summary = .ok (d1 ++ d2 ++ d3 ++ d4 ++ d5 ++ d6 ++ d7 ++ d8) ∧
    (∀ reg wh0 pr, parse_html_summary reg wh0 summary = .ok pr →
      pr.parsed =
        (table_data_and_headers reg (r1 ++ r2 ++ r3 ++ r4 ++ r5 ++ r6 ++ r7 ++ r8)
          (d1 ++ d2 ++ d3 ++ d4 ++ d5 ++ d6 ++ d7 ++ d8)).1 ∧
      pr.headers =
        (table_data_and_headers reg (r1 ++ r2 ++ r3 ++ r4 ++ r5 ++ r6 ++ r7 ++ r8)
          (d1 ++ d2 ++ d3 ++ d4 ++ d5 ++ d6 ++ d7 ++ d8)).2) := by
  have hr := dataRowsOf_intro summary r1 r2 r3 r4 r5 r6 r7 r8 e1 e2 e3 e4 e5 e6 e7 e8
  have hd := helpTextOf_intro summary d1 d2 d3 d4 d5 d6 d7 d8 f1 f2 f3 f4 f5 f6 f7 f8
  refine ⟨hr, hd, ?_⟩
  intro reg wh0 pr hpr
  obtain ⟨rows, helps, _, _, _, _, _, _, _, _, _, _, hrows, hhelps, _, _, _, _, _, _,
    _, _, _, _, hpr'⟩ := parse_ok_elim hpr
  rw [hr] at hrows
  rw [hd] at hhelps
  injection hrows with hrows
  injection hhelps with hhelps
  rw [hpr', ← hrows, ← hhelps]
  exact ⟨rfl, rfl⟩

/-- Witness for C1 at a concrete summary: sample `A`'s joint metrics rows
followed by seven empty sections. -/
theorem claim_c1_witness :
    dataRowsOf summaryA1 =
      .ok ([mkRow "M1" "v1"] ++ [] ++ [] ++ [] ++ [] ++ [] ++ [] ++ []) :=
  (claim_c1_eight_section_concat summaryA1
    [mkRow "M1" "v1"] [] [] [] [] [] [] [] [] [] [] [] [] [] [] []
    rfl rfl rfl rfl rfl rfl rfl rfl rfl rfl rfl rfl rfl rfl rfl rfl).1

/-- C2: for every input file, the Summary Extractor considers only the
first line whose stripped content starts with `"const data"`: it removes
the substring `"const data = "` from that line and stops scanning (the
result does not depend on the lines after the match); when no such line
exists the scan yields nothing and the file is skipped with the module
state unchanged and no error raised. -/
theorem claim_c2_first_const_data_line :
    (∀ (pre : List String) (l : String) (post : List String),
      (∀ x ∈ pre, pyStartswith (pyStrip x) "const data" = false) →
      pyStartswith (pyStrip l) "const data" = true →
      findConstData (pre ++ l :: post) =
        some (pyReplace (pyStrip l) "const data = " "")) ∧
    (∀ lines : List String,
      (∀ x ∈ lines, pyStartswith (pyStrip x) "const data" = false) →
      findConstData lines = none) ∧
    (∀ (pj : String → Json) (clean : String → String) (st : ModuleState)
      (f : FileInput), findConstData f.lines = none →
      processFile pj clean st f = .ok st) := by
  refine ⟨?_, ?_, ?_⟩
  · intro pre
    induction pre with
    | nil =>
      intro l post _ hl
      simp [findConstData, hl]
    | cons x xs ih =>
      intro l post hpre hl
      have hx := hpre x (List.mem_cons_self x xs)
      simp only [List.cons_append, findConstData, hx, Bool.false_eq_true, if_false]
      exact ih l post (fun y hy => hpre y (List.mem_cons_of_mem x hy)) hl
  · intro lines
    induction lines with
    | nil => intro _; rfl
    | cons x xs ih =>
      intro h
      have hx := h x (List.mem_cons_self x xs)
      simp only [findConstData, hx, Bool.false_eq_true, if_false]
      exact ih fun y hy => h y (List.mem_cons_of_mem x hy)
  · intro pj clean st f hf
    unfold processFile
    rw [hf]

/-- Witness for C2: a concrete three-line file where the payload line is
found, transformed and the trailing junk line never looked at; and a
concrete summary-free file left unprocessed. -/
theorem claim_c2_witness :
    findConstData ["<html>", "  const data = 7 ", "junk"] = some "7" ∧
    processFile testParseJson id initState ⟨"empty.html", ["<html>", "<body>"]⟩ =
      .ok initState := by
  constructor
  · have h := claim_c2_first_const_data_line.1 ["<html>"] "  const data = 7 " ["junk"]
      (by intro x hx; simp at hx; rw [hx]; rfl) rfl
    simpa using h
  · exact claim_c2_first_const_data_line.2.2 testParseJson id initState
      ⟨"empty.html", ["<html>", "<body>"]⟩ rfl

theorem getKey_ok_lookup {kvs : List (String × Json)} {k : String} {v : Json}
    (h : Json.getKey (Json.obj kvs) k = .ok v) : lookupKey kvs k = some v := by
  cases hl : lookupKey kvs k with
  | none => simp [Json.getKey, hl] at h
  | some w =>
    simp [Json.getKey, hl] at h
    rw [h]

/-- C3: for every RawSummary object missing any of the eight required
table keys, any of the eight required helptext keys, or any of the four
required plot keys, the per-file parse is a hard failure — the parse
cannot succeed, and on otherwise well-formed summaries the propagated
error is exactly the `KeyError` for the missing key, shown here for a
table key, a helptext key and a plot key. -/
theorem claim_c3_missing_key_hard_failure (registry : List (String × Header))
    (whdrs0 : List (String × WHeader)) (kvs : List (String × Json)) (k : String)
    (hk : k ∈ requiredKeys) (hmiss : lookupKey kvs k = none) :
    (∀ pr, parse_html_summary registry whdrs0 (Json.obj kvs) ≠ .ok pr) ∧
    parse_html_summary [] [] (summaryDrop "gex_mapping_table") =
      .error (.keyError "gex_mapping_table") ∧
    parse_html_summary [] [] (summaryDrop "atac_cells_helptext") =
      .error (.keyError "atac_cells_helptext") ∧
    parse_html_summary [] [] (summaryDrop "gex_seq_saturation_plot") =
      .error (.keyError "gex_seq_saturation_plot") := by
  refine ⟨?_, rfl, rfl, rfl⟩
  intro pr hpr
  obtain ⟨rows, helps, _, _, tJ, _, iJ, _, sJ, _, gJ, _, hrows, hhelps, _, _,
    htJ, _, hiJ, _, hsJ, _, hgJ, _, _⟩ := parse_ok_elim hpr
  rw [requiredKeys, List.mem_append, List.mem_append] at hk
  rcases hk with (hk | hk) | hk
  · obtain ⟨r, hr⟩ := dataRowsOf_elim hrows k hk
    obtain ⟨v, hv⟩ := getRowsOf_elim hr
    rw [getKey_ok_lookup hv] at hmiss
    exact Option.noConfusion hmiss
  · obtain ⟨r, hr⟩ := helpTextOf_elim hhelps k hk
    obtain ⟨v, hv⟩ := getHelpOf_elim hr
    rw [getKey_ok_lookup hv] at hmiss
    exact Option.noConfusion hmiss
  · simp only [plotKeys, List.mem_cons, List.not_mem_nil, or_false] at hk
    rcases hk with rfl | rfl | rfl | rfl
    · rw [getKey_ok_lookup htJ] at hmiss; exact Option.noConfusion hmiss
    · rw [getKey_ok_lookup hiJ] at hmiss; exact Option.noConfusion hmiss
    · rw [getKey_ok_lookup hsJ] at hmiss; exact Option.noConfusion hmiss
    · rw [getKey_ok_lookup hgJ] at hmiss; exact Option.noConfusion hmiss

/-- Witness for C3: a concrete summary lacking `gex_mapping_table` cannot
parse successfully. -/
theorem claim_c3_witness :
    parse_html_summary [] []
      (Json.obj ((mkSummaryFields "A" [] []).filter fun p => p.1 ≠ "gex_mapping_table")) ≠
      .ok ⟨[], [], [], [], [], [], [], []⟩ :=
  (claim_c3_missing_key_hard_failure [] []
    ((mkSummaryFields "A" [] []).filter fun p => p.1 ≠ "gex_mapping_table")
    "gex_mapping_table" (by decide) rfl).1 ⟨[], [], [], [], [], [], [], []⟩

/-- The spec's version-extraction example input: row index 2 of the
pipeline-info table is `["Pipeline version", "cellranger-arc-2.0.1"]`. -/
def versionExample : Json :=
  Json.obj [("joint_pipeline_info_table", Json.obj [("rows", Json.arr
    [Json.arr [], Json.arr [],
     Json.arr [Json.str "Pipeline version", Json.str "cellranger-arc-2.0.1"]])])]

/-- The spec's negative version example: the label at row index 2 is not
`"Pipeline version"`. -/
def versionExampleBad : Json :=
  Json.obj [("joint_pipeline_info_table", Json.obj [("rows", Json.arr
    [Json.arr [], Json.arr [],
     Json.arr [Json.str "Something else", Json.str "..."]])])]

/-- C4: any failure of the version sub-step among a missing key, a label
at row index 2 different from `"Pipeline version"`, or no
`cellranger-arc-<version>` regex match, is caught locally (the sub-step
returns instead of raising, so processing of the rest of the file
continues) with at most a debug-level log entry; and on the well-formed
path the recorded version is exactly the regex search's capture, so a
version is recorded if and only if the regex matches. -/
theorem claim_c4_version_failures_caught :
    (∀ kvs : List (String × Json), lookupKey kvs "joint_pipeline_info_table" = none →
      extract_version_step (Json.obj kvs) = .ok ⟨none, true⟩) ∧
    (∀ (kvs tkvs : List (String × Json)),
      lookupKey kvs "joint_pipeline_info_table" = some (Json.obj tkvs) →
      lookupKey tkvs "rows" = none →
      extract_version_step (Json.obj kvs) = .ok ⟨none, true⟩) ∧
    (∀ (s tbl rowsJ pair label : Json),
      Json.getKey s "joint_pipeline_info_table" = .ok tbl →
      Json.getKey tbl "rows" = .ok rowsJ →
      Json.pyIndex rowsJ 2 = .ok pair →
      Json.pyIndex pair 0 = .ok label →
      label.isStrEq "Pipeline version" = false →
      extract_version_step s = .ok ⟨none, true⟩) ∧
    (∀ (s tbl rowsJ pair label : Json) (sv : String),
      Json.getKey s "joint_pipeline_info_table" = .ok tbl →
      Json.getKey tbl "rows" = .ok rowsJ →
      Json.pyIndex rowsJ 2 = .ok pair →
      Json.pyIndex pair 0 = .ok label →
      label.isStrEq "Pipeline version" = true →
      Json.pyIndex pair 1 = .ok (Json.str sv) →
      extract_version_step s = .ok ⟨regexSearchVersion sv, false⟩) ∧
    extract_version_step versionExample = .ok ⟨some "2.0.1", false⟩ ∧
    extract_version_step versionExampleBad = .ok ⟨none, true⟩ := by
  refine ⟨?_, ?_, ?_, ?_, rfl, rfl⟩
  · intro kvs h
    have hEV : extract_version (Json.obj kvs) = .error (.keyError "joint_pipeline_info_table") := by
      unfold extract_version
      simp [Json.getKey, h, except_error_bind]
    simp [extract_version_step, hEV]
  · intro kvs tkvs h1 h2
    have hEV : extract_version (Json.obj kvs) = .error (.keyError "rows") := by
      unfold extract_version
      simp [Json.getKey, h1, h2, except_bind_ok, except_error_bind]
    simp [extract_version_step, hEV]
  · intro s tbl rowsJ pair label h1 h2 h3 h4 h5
    have hEV : extract_version s = .error .assertionError := by
      unfold extract_version
      rw [h1, except_bind_ok, h2, except_bind_ok, h3, except_bind_ok, h4,
        except_bind_ok, h5]
      rfl
    simp [extract_version_step, hEV]
  · intro s tbl rowsJ pair label sv h1 h2 h3 h4 h5 h6
    have hEV : extract_version s = .ok (regexSearchVersion sv) := by
      unfold extract_version
      rw [h1, except_bind_ok, h2, except_bind_ok, h3, except_bind_ok, h4,
        except_bind_ok, h5]
      simp [h6, except_bind_ok, Json.asStr]
    simp [extract_version_step, hEV]

/-- Witness for C4: the well-formed conjunct applied at the spec's example
input. -/
theorem claim_c4_witness :
    extract_version_step versionExample =
      .ok ⟨regexSearchVersion "cellranger-arc-2.0.1", false⟩ :=
  claim_c4_version_failures_caught.2.2.2.1 versionExample
    (Json.obj [("rows", Json.arr [Json.arr [], Json.arr [],
      Json.arr [Json.str "Pipeline version", Json.str "cellranger-arc-2.0.1"]])])
    (Json.arr [Json.arr [], Json.arr [],
      Json.arr [Json.str "Pipeline version", Json.str "cellranger-arc-2.0.1"]])
    (Json.arr [Json.str "Pipeline version", Json.str "cellranger-arc-2.0.1"])
    (Json.str "Pipeline version") "cellranger-arc-2.0.1"
    rfl rfl rfl rfl rfl rfl

/-- C5: as successive files are parsed in one run, the per-run header
registry accumulates entries across files — after one more file is parsed,
names absent from that file keep their previous registry entry unchanged,
and every name present in the file maps to the header metadata derived
from that file (so a later file overwrites same-name entries). -/
theorem claim_c5_registry_accumulates
    (clean : String → String) (fn : String) (st : ModuleState) (summary : Json)
    (st' : ModuleState) (rows helps : List Json)
    (hrows : dataRowsOf summary = .ok rows)
    (hhelps : helpTextOf summary = .ok helps)
    (hok : processSummary clean fn st summary = .ok st') :
    (∀ n, n ∉ rowNames rows →
      lookupKey st'.all_headers n = lookupKey st.all_headers n) ∧
    (∀ n, n ∈ rowNames rows →
      lookupKey st'.all_headers n =
        some ⟨n, helpDescription helps n, none, none, false⟩) := by
  obtain ⟨sblock, sidJ, sid, pr, vo, _, _, _, hpr, _, hst'⟩ := processSummary_ok_elim hok
  obtain ⟨rows', helps', _, _, _, _, _, _, _, _, _, _, hrows', hhelps', _, _, _, _,
    _, _, _, _, _, _, hpreq⟩ := parse_ok_elim hpr
  rw [hrows] at hrows'
  rw [hhelps] at hhelps'
  injection hrows' with hre
  injection hhelps' with hhe
  subst hre
  subst hhe
  have hah : st'.all_headers = pr.headers := by rw [hst']; rfl
  have hprh : pr.headers = (table_data_and_headers st.all_headers rows helps).2 := by
    rw [hpreq]
  constructor
  · intro n hn
    rw [hah, hprh, tdh_lookup, if_neg hn]
  · intro n hn
    rw [hah, hprh, tdh_lookup, if_pos hn]

/-- A module state whose header registry already holds an entry for a
metric name `Old` contributed by an earlier file. -/
def stW : ModuleState :=
  ⟨[], [], [], [("Old", ⟨"Old", none, none, none, false⟩)], [], [], [], [], [], [], []⟩

/-- The state after `stW` additionally processes `summaryA2`. -/
def stWAfter : ModuleState :=
  ⟨[("A", [("M1", Json.str "v2")])], [], [],
   [("Old", ⟨"Old", none, none, none, false⟩), ("M1", ⟨"M1", none, none, none, false⟩)],
   [("A", [])], [("A", [])], [("A", [])], [("A", [])], [], [("A", "f.html")],
   ["Unable to parse version for sample A"]⟩

/-- Witness for C5: after a second file contributing only `M1` is parsed,
the earlier file's `Old` entry is untouched and `M1` holds the new file's
metadata. -/
theorem claim_c5_witness :
    lookupKey stWAfter.all_headers "Old" = lookupKey stW.all_headers "Old" ∧
    lookupKey stWAfter.all_headers "M1" =
      some ⟨"M1", none, none, none, false⟩ := by
  have h := claim_c5_registry_accumulates id "f.html" stW summaryA2 stWAfter
    [mkRow "M1" "v2"] [] rfl rfl rfl
  exact ⟨h.1 "Old" (by decide), h.2 "M1" (by decide)⟩

/-- C6: for every RawSummary object, the warnings are built by iterating
`summary.alarms.alarms` — defaulting to the empty list when the inner
`alarms` key is absent from the alarms block — skipping every entry
lacking an `id` field; each remaining entry contributes exactly one entry
keyed by its title with value `"FAIL"`, whose header metadata carries the
entry's `message` as description and the fixed highlight color `#f06807`;
no other entries appear. -/
theorem claim_c6_warnings (reg : List (String × Header))
    (wh0 : List (String × WHeader)) (summary : Json)
    (ab : List (String × Json)) (items : List Json)
    (hblock : Json.getKey summary "alarms" = .ok (Json.obj ab)) :
    (lookupKey ab "alarms" = none → getAlarmsList summary = .ok []) ∧
    (lookupKey ab "alarms" = some (Json.arr items) →
      (∀ a ∈ items, alarmOk a = true) →
      ∃ W H, buildWarnings [] wh0 items = .ok (W, H) ∧
        (∀ pr, parse_html_summary reg wh0 summary = .ok pr →
          pr.warns = W ∧ pr.wheaders = H) ∧
        (∀ t, lookupKey W t = some "FAIL" ↔
          ∃ a ∈ items, alarmHasId a = true ∧ alarmTitle a = some t) ∧
        (∀ t v, lookupKey W t = some v → v = "FAIL") ∧
        (∀ t h, lookupKey H t = some h → lookupKey wh0 t = some h ∨
          (h.title = t ∧ h.bgcols = [("FAIL", "#f06807")] ∧
            ∃ a ∈ items, alarmHasId a = true ∧ alarmTitle a = some t ∧
              alarmMessage a = some h.description))) := by
  constructor
  · intro hin
    unfold getAlarmsList
    rw [hblock, except_bind_ok]
    simp [hin]
  · intro hin hok
    obtain ⟨W, H, hbw, c1, c2, c3, c4⟩ := buildWarnings_spec items [] wh0 hok
    have hga : getAlarmsList summary = .ok items := by
      unfold getAlarmsList
      rw [hblock, except_bind_ok]
      simp [hin, Json.asArr]
    refine ⟨W, H, hbw, ?_, ?_, ?_, c4⟩
    · intro pr hpr
      obtain ⟨rows0, helps0, al, ww, tJ0, t0, iJ0, i0, sJ0, sa0, gJ0, g0,
        hrows0, hhelps0, hal, hww, htJ0, ht0, hiJ0, hi0, hsJ0, hsa0, hgJ0, hg0,
        hpreq⟩ := parse_ok_elim hpr
      rw [hga] at hal
      injection hal with hal
      subst hal
      rw [hbw] at hww
      injection hww with hww
      rw [hpreq, ← hww]
      exact ⟨rfl, rfl⟩
    · intro t
      constructor
      · intro hl
        rcases c3 t "FAIL" hl with hnil | ⟨_, hex⟩
        · exact absurd hnil (by simp [lookupKey])
        · exact hex
      · intro hex
        exact c1 t hex
    · intro t v hv
      rcases c3 t v hv with hnil | ⟨hvf, _⟩
      · exact absurd hnil (by simp [lookupKey])
      · exact hvf

/-- The alarms-block fields of `summaryA1`. -/
def mkAlarmsBlockA1 : List (String × Json) := [("alarms", Json.arr [alarmA1])]

/-- Witness for C6: the empty default on a block without the inner
`alarms` key, and the single `W1 -> FAIL` entry built from `alarmA1`. -/
theorem claim_c6_witness :
    getAlarmsList (Json.obj [("alarms", Json.obj [])]) = .ok [] ∧
    lookupKey [("W1", "FAIL")] "W1" = some "FAIL" := by
  refine ⟨(claim_c6_warnings [] [] (Json.obj [("alarms", Json.obj [])]) [] []
    rfl).1 rfl, ?_⟩
  obtain ⟨W, H, hbw, hlink, hiff, hfail, hhdr⟩ :=
    (claim_c6_warnings [] [] summaryA1 (mkAlarmsBlockA1) [alarmA1] rfl).2 rfl
      (by decide)
  have he : buildWarnings [] ([] : List (String × WHeader)) [alarmA1] =
      .ok ([("W1", "FAIL")],
        [("W1", ⟨"W1", Json.str "m1", [("FAIL", "#f06807")]⟩)]) := rfl
  rw [he] at hbw
  injection hbw with hbw
  have hW : [("W1", "FAIL")] = W := congrArg Prod.fst hbw
  rw [hW]
  exact (hiff "W1").2 ⟨alarmA1, by simp, by decide, by decide⟩

/-- C7: after all files are scanned, the accumulated per-sample mappings
are filtered exactly once by the external sample-exclusion predicate (the
run is the fold followed by one `finalize`, and every final output is the
filter of the corresponding accumulated mapping); if zero samples remain
in the metrics mapping the run fails with `ModuleNoSamplesFound`, and with
at least one surviving sample no such signal is raised and excluded
samples appear in none of the outputs. -/
theorem claim_c7_exclusion_filter :
    (∀ (keep : String → Bool) (st : ModuleState),
      ignore_samples keep st.data = [] →
      finalize keep st = .error .noSamplesFound) ∧
    (∀ (keep : String → Bool) (st : ModuleState),
      ignore_samples keep st.data ≠ [] →
      finalize keep st = .ok ⟨ignore_samples keep st.data,
        ignore_samples keep st.warnings, ignore_samples keep st.tss,
        ignore_samples keep st.insertSize, ignore_samples keep st.saturation,
        ignore_samples keep st.genes⟩) ∧
    (∀ (keep : String → Bool) (st : ModuleState) (out : FinalOutputs),
      finalize keep st = .ok out → ∀ s, keep s = false →
      lookupKey out.data s = none ∧ lookupKey out.warnings s = none ∧
      lookupKey out.tss s = none ∧ lookupKey out.insertSize s = none ∧
      lookupKey out.saturation s = none ∧ lookupKey out.genes s = none) ∧
    (∀ (pj : String → Json) (clean : String → String) (keep : String → Bool)
      (files : List FileInput) (st : ModuleState),
      List.foldlM (processFile pj clean) initState files = .ok st →
      runModule pj clean keep files = finalize keep st) := by
  refine ⟨?_, ?_, ?_, ?_⟩
  · intro keep st h
    unfold finalize
    rw [if_pos (by rw [h]; rfl)]
  · intro keep st h
    unfold finalize
    rw [if_neg (by rw [List.length_eq_zero]; exact h)]
  · intro keep st out h s hs
    unfold finalize at h
    by_cases hz : (ignore_samples keep st.data).length = 0
    · rw [if_pos hz] at h
      exact Except.noConfusion h
    · rw [if_neg hz] at h
      injection h with h
      rw [← h]
      exact ⟨lookup_filter_not_keep keep st.data s hs,
        lookup_filter_not_keep keep st.warnings s hs,
        lookup_filter_not_keep keep st.tss s hs,
        lookup_filter_not_keep keep st.insertSize s hs,
        lookup_filter_not_keep keep st.saturation s hs,
        lookup_filter_not_keep keep st.genes s hs⟩
  · intro pj clean keep files st h
    unfold runModule
    rw [h, except_bind_ok]

/-- The two test files for samples `A` and `B` with disjoint metric
names. -/
def filesAB : List FileInput :=
  [⟨"fa.html", ["const data = 1"]⟩, ⟨"fb.html", ["const data = 3"]⟩]

/-- The accumulated state after scanning `filesAB`. -/
def stAB : ModuleState :=
  ⟨[("A", [("M1", Json.str "v1")]), ("B", [("M2", Json.str "w1")])],
   [("A", [("W1", "FAIL")])],
   [("W1", ⟨"W1", Json.str "m1", [("FAIL", "#f06807")]⟩)],
   [("M1", ⟨"M1", none, none, none, false⟩), ("M2", ⟨"M2", none, none, none, false⟩)],
   [("A", []), ("B", [])], [("A", []), ("B", [])],
   [("A", []), ("B", [])], [("A", []), ("B", [])],
   [], [("A", "fa.html"), ("B", "fb.html")],
   ["Unable to parse version for sample A", "Unable to parse version for sample B"]⟩

/-- Witness for C7: excluding every sample turns `stAB` into the
no-samples failure, while excluding only `B` leaves a successful run in
which `B` is absent from the filtered metrics mapping. -/
theorem claim_c7_witness :
    finalize (fun _ => false) stAB = .error .noSamplesFound ∧
    lookupKey (ignore_samples (fun s => !(s == "B")) stAB.data) "B" = none := by
  constructor
  · exact claim_c7_exclusion_filter.1 (fun _ => false) stAB rfl
  · have h2 := claim_c7_exclusion_filter.2.1 (fun s => !(s == "B")) stAB
      (fun h => List.noConfusion h)
    exact ((claim_c7_exclusion_filter.2.2.1 (fun s => !(s == "B")) stAB _ h2)
      "B" rfl).1

theorem getLast?_snoc {α : Type} (l : List α) (a : α) :
    (l ++ [a]).getLast? = some a := by
  rw [List.getLast?_append_cons]
  rfl

/-- The module state after the first duplicate-sample file (`summaryA1`,
sample `A`, one warning). -/
def dupMid : ModuleState :=
  ⟨[("A", [("M1", Json.str "v1")])],
   [("A", [("W1", "FAIL")])],
   [("W1", ⟨"W1", Json.str "m1", [("FAIL", "#f06807")]⟩)],
   [("M1", ⟨"M1", none, none, none, false⟩)],
   [("A", [])], [("A", [])], [("A", [])], [("A", [])],
   [], [("A", "f1.html")],
   ["Unable to parse version for sample A"]⟩

/-- The module state after both duplicate-sample files (`summaryA2`
processed on top of `dupMid`). -/
def dupState : ModuleState :=
  ⟨[("A", [("M1", Json.str "v2")])],
   [("A", [("W1", "FAIL")])],
   [("W1", ⟨"W1", Json.str "m1", [("FAIL", "#f06807")]⟩)],
   [("M1", ⟨"M1", none, none, none, false⟩)],
   [("A", [])], [("A", [])], [("A", [])], [("A", [])],
   [], [("A", "f1.html"), ("A", "f2.html")],
   ["Unable to parse version for sample A", "Unable to parse version for sample A",
    "Duplicate sample name found in f2.html! Overwriting: A"]⟩

/-- The parse result of the second duplicate-sample file, against the
registries left by the first: no warnings. -/
def pr2c : ParseResult :=
  ⟨[("M1", Json.str "v2")], [("M1", ⟨"M1", none, none, none, false⟩)],
   [], [("W1", ⟨"W1", Json.str "m1", [("FAIL", "#f06807")]⟩)],
   [], [], [], []⟩

/-- Counterexample to C8: both files yield the cleaned sample name `A` and
the later file's parse yields no warnings, yet after the run the warnings
mapping still holds the earlier file's entry `W1 -> FAIL` for `A` — the
later file's (empty) warnings did not overwrite the earlier entry in the
warnings mapping, while the metrics entry was overwritten to `v2`. -/
theorem claim_c8_counterexample :
    List.foldlM (processFile testParseJson id) initState dupFiles = .ok dupState ∧
    parse_html_summary dupMid.all_headers dupMid.warnings_headers summaryA2 =
      .ok pr2c ∧
    pr2c.warns = [] ∧
    lookupKey dupState.data "A" = some [("M1", Json.str "v2")] ∧
    lookupKey dupState.warnings "A" = some [("W1", "FAIL")] ∧
    lookupKey dupState.warnings "A" ≠ some pr2c.warns := by
  refine ⟨rfl, rfl, rfl, rfl, rfl, ?_⟩
  intro h
  injection h with h
  exact List.noConfusion h

/-- C8 (amended): for every pair of files that yield the same cleaned
sample name, processing the later file logs a debug message and its parsed
data overwrites the earlier file's entry in the per-sample metrics and
four plot mappings, and in the warnings mapping when the later file has at
least one warning; when the later file has no warnings the earlier file's
warnings entry is left in place; no error is raised and the metrics
mapping keeps exactly one entry for that sample name. -/
theorem claim_c8_amended (clean : String → String) (fn : String)
    (st : ModuleState) (summary : Json) (st' : ModuleState)
    (sblock sidJ : Json) (sid : String) (pr : ParseResult)
    (hsb : Json.getKey summary "sample" = .ok sblock)
    (hsj : Json.getKey sblock "id" = .ok sidJ)
    (hsid : Json.asStr sidJ = .ok sid)
    (hpr : parse_html_summary st.all_headers st.warnings_headers summary = .ok pr)
    (hok : processSummary clean fn st summary = .ok st')
    (hdup : (lookupKey st.data (clean sid)).isSome = true) :
    lookupKey st'.data (clean sid) = some pr.parsed ∧
    lookupKey st'.tss (clean sid) = some pr.tss ∧
    lookupKey st'.insertSize (clean sid) = some pr.insertSize ∧
    lookupKey st'.saturation (clean sid) = some pr.saturation ∧
    lookupKey st'.genes (clean sid) = some pr.genes ∧
    (pr.warns.length > 0 →
      lookupKey st'.warnings (clean sid) = some pr.warns) ∧
    (pr.warns = [] → st'.warnings = st.warnings) ∧
    st'.debugLog.getLast? =
      some ("Duplicate sample name found in " ++ fn ++ "! Overwriting: " ++ clean sid) ∧
    (countKey st.data (clean sid) ≤ 1 → countKey st'.data (clean sid) = 1) := by
  obtain ⟨sb', sj', sid', pr', vo, hsb', hsj', hsid', hpr', hvo, hrec⟩ :=
    processSummary_ok_elim hok
  rw [hsb] at hsb'
  injection hsb' with hsb'
  subst hsb'
  rw [hsj] at hsj'
  injection hsj' with hsj'
  subst hsj'
  rw [hsid] at hsid'
  injection hsid' with hsid'
  subst hsid'
  rw [hpr] at hpr'
  injection hpr' with hpr'
  subst hpr'
  subst hrec
  unfold recordSample
  refine ⟨lookup_dinsert_self _ _ _, lookup_dinsert_self _ _ _,
    lookup_dinsert_self _ _ _, lookup_dinsert_self _ _ _,
    lookup_dinsert_self _ _ _, ?_, ?_, ?_, ?_⟩
  · intro h
    simp only [if_pos h]
    exact lookup_dinsert_self _ _ _
  · intro h
    rw [h]
    rfl
  · simp only [if_pos hdup]
    exact getLast?_snoc _ _
  · intro h
    exact countKey_dinsert _ _ _ h

/-- Witness for the amended C8, at the concrete duplicate-sample pair:
metrics overwritten, warnings left in place, duplicate message logged
last, and a single metrics entry for `A`. -/
theorem claim_c8_witness :
    lookupKey dupState.data "A" = some pr2c.parsed ∧
    dupState.warnings = dupMid.warnings ∧
    dupState.debugLog.getLast? =
      some ("Duplicate sample name found in " ++ "f2.html" ++ "! Overwriting: " ++ id "A") ∧
    countKey dupState.data "A" = 1 := by
  have h := claim_c8_amended id "f2.html" dupMid summaryA2 dupState
    (Json.obj [("id", Json.str "A")]) (Json.str "A") "A" pr2c
    rfl rfl rfl rfl rfl rfl
  exact ⟨h.1, h.2.2.2.2.2.2.1 rfl, h.2.2.2.2.2.2.2.1, h.2.2.2.2.2.2.2.2 (by decide)⟩

/-- C9: for every full header-metadata mapping and every caller-supplied
ordered list of requested metric names, the header-subsetting operation
returns exactly the requested names that are present in the full pool, in
the requested list's order — in particular it never introduces a name
absent from the pool. -/
theorem claim_c9_subset_header (headers : List (String × Header))
    (cols : List (String × String)) (nspace : Option String) :
    (subset_header headers cols nspace).map Prod.fst =
      (cols.map Prod.fst).filter (fun n => (lookupKey headers n).isSome) ∧
    ∀ p ∈ subset_header headers cols nspace,
      (lookupKey headers p.1).isSome = true ∧ p.1 ∈ cols.map Prod.fst := by
  constructor
  · induction cols with
    | nil => rfl
    | cons c rest ih =>
      obtain ⟨n, sc⟩ := c
      cases hl : lookupKey headers n with
      | none =>
        simp only [subset_header, List.filterMap_cons, hl, Option.map_none',
          List.map_cons, List.filter_cons, Option.isSome_none, Bool.false_eq_true,
          if_false]
        exact ih
      | some hh =>
        simp only [subset_header, List.filterMap_cons, hl, Option.map_some',
          List.map_cons, List.filter_cons, Option.isSome_some, if_true]
        rw [← ih]
        rfl
  · intro p hp
    simp only [subset_header, List.mem_filterMap] at hp
    obtain ⟨c, hc, hmap⟩ := hp
    cases hl : lookupKey headers c.1 with
    | none =>
      rw [hl] at hmap
      exact Option.noConfusion hmap
    | some hh =>
      rw [hl] at hmap
      simp only [Option.map_some'] at hmap
      injection hmap with hmap
      rw [← hmap]
      exact ⟨by rw [hl]; rfl, List.mem_map.mpr ⟨c, hc, rfl⟩⟩

/-- A concrete header pool for the C9 witness. -/
def poolW : List (String × Header) :=
  [("b", ⟨"b", none, none, none, false⟩), ("a", ⟨"a", none, none, none, false⟩)]

/-- A concrete requested column list: `c` is absent from the pool. -/
def colsW : List (String × String) := [("a", "YlGn"), ("c", "Blues"), ("b", "RdPu")]

/-- Witness for C9: subsetting `poolW` by `colsW` yields exactly `a` then
`b`, in the requested order, with the absent `c` dropped. -/
theorem claim_c9_witness :
    (subset_header poolW colsW none).map Prod.fst = ["a", "b"] :=
  (claim_c9_subset_header poolW colsW none).1.trans rfl

/-- C10: for every file whose summary parses successfully, the module
inserts that file's cleaned sample name into all four plot-kind mappings
(tss, insert size, saturation, genes) as well as into the per-sample
metrics mapping; consequently, before exclusion filtering, each of the
four plot mappings has exactly the same key list as the metrics
mapping. -/
theorem claim_c10_plot_keys_synced :
    (∀ (clean : String → String) (fn : String) (st : ModuleState)
      (summary : Json) (st' : ModuleState) (sblock sidJ : Json) (sid : String),
      Json.getKey summary "sample" = .ok sblock →
      Json.getKey sblock "id" = .ok sidJ →
      Json.asStr sidJ = .ok sid →
      processSummary clean fn st summary = .ok st' →
      clean sid ∈ keysOf st'.data ∧ clean sid ∈ keysOf st'.tss ∧
      clean sid ∈ keysOf st'.insertSize ∧ clean sid ∈ keysOf st'.saturation ∧
      clean sid ∈ keysOf st'.genes) ∧
    (∀ (pj : String → Json) (clean : String → String) (files : List FileInput)
      (st : ModuleState),
      List.foldlM (processFile pj clean) initState files = .ok st →
      keysOf st.tss = keysOf st.data ∧ keysOf st.insertSize = keysOf st.data ∧
      keysOf st.saturation = keysOf st.data ∧ keysOf st.genes = keysOf st.data) := by
  constructor
  · intro clean fn st summary st' sblock sidJ sid hsb hsj hsid hok
    obtain ⟨sb', sj', sid', pr, vo, hsb', hsj', hsid', _, _, hrec⟩ :=
      processSummary_ok_elim hok
    rw [hsb] at hsb'
    injection hsb' with hsb'
    subst hsb'
    rw [hsj] at hsj'
    injection hsj' with hsj'
    subst hsj'
    rw [hsid] at hsid'
    injection hsid' with hsid'
    subst hsid'
    subst hrec
    unfold recordSample
    exact ⟨mem_keys_dinsert _ _ _, mem_keys_dinsert _ _ _, mem_keys_dinsert _ _ _,
      mem_keys_dinsert _ _ _, mem_keys_dinsert _ _ _⟩
  · intro pj clean files st h
    exact foldl_plots_synced pj clean files initState ⟨rfl, rfl, rfl, rfl⟩ st h

/-- Witness for C10 on the concrete duplicate-sample run: sample `A` is a
key of the metrics mapping and the four plot mappings carry exactly the
metrics mapping's keys. -/
theorem claim_c10_witness :
    ("A" ∈ keysOf dupState.data ∧ "A" ∈ keysOf dupState.tss ∧
      "A" ∈ keysOf dupState.insertSize ∧ "A" ∈ keysOf dupState.saturation ∧
      "A" ∈ keysOf dupState.genes) ∧
    keysOf dupState.tss = keysOf dupState.data := by
  constructor
  · exact claim_c10_plot_keys_synced.1 id "f2.html" dupMid summaryA2 dupState
      (Json.obj [("id", Json.str "A")]) (Json.str "A") "A" rfl rfl rfl rfl
  · exact (claim_c10_plot_keys_synced.2 testParseJson id dupFiles dupState rfl).1

end CellrangerArc
